import Mathlib

/-!
Shallow embedding of the HiNATA kernel subsystem of byenat/notcontrolOS
(src/kernel/hinata): the packet model and validator, the pooled memory
manager, the storage region/cache layer and the worker task queue, together
with theorems settling the frozen specification claims.

Conventions of the embedding:
* machine integers are `Nat` (unsigned) or `Int` (C `int`), with wrap-around
  made explicit where it matters;
* C strings (`char` arrays holding NUL-terminated text) are `List Nat` of the
  bytes before the terminator; raw byte buffers are also `List Nat`, and a
  possibly-NULL pointer to a buffer is `Option (List Nat)`;
* fallible environment effects (the host allocator succeeding, `kernel_write`
  succeeding, the current time) are explicit parameters;
* global mutable module state (counters, caches, region tables) becomes an
  explicit state value threaded through the operations.
-/

namespace Hinata

/-! ### Kernel error numbers (include/uapi/asm-generic/errno-base.h) -/

def ENOENT : Int := 2
/-- Kernel error number EIO (I/O error). -/
def EIOerr : Int := 5
def ENOMEM : Int := 12
def ENODEV : Int := 19
def EINVAL : Int := 22
def ENOSPC : Int := 28
def ENOSYS : Int := 38

/-- `SIZE_MAX` for the 64-bit `size_t` used by the kernel build. -/
def SIZE_MAX : Nat := 2 ^ 64 - 1

/-- `HZ`, the kernel jiffies frequency.  The value is configuration dependent;
the theorems below treat it symbolically. -/
def HZ : Nat := 100

/-! ### ctype helpers (linux/ctype.h, table from lib/ctype.c) -/

/-- `isspace` per the kernel ctype table: HT..CR, space, and NBSP (0xA0). -/
def isspace (c : Nat) : Bool :=
  (9 ≤ c && c ≤ 13) || c = 32 || c = 160

/-- `isprint` per the kernel ctype table: the ASCII printable range plus the
Latin-1 range 0xA0..0xFF. -/
def isprint (c : Nat) : Bool :=
  (32 ≤ c && c ≤ 126) || (160 ≤ c && c ≤ 255)

def isdigit (c : Nat) : Bool := 48 ≤ c && c ≤ 57

def isxdigit (c : Nat) : Bool :=
  isdigit c || (65 ≤ c && c ≤ 70) || (97 ≤ c && c ≤ 102)

/-- `isalpha` per the kernel ctype table: ASCII letters plus the Latin-1
letters 0xC0..0xFF without the two operators 0xD7 and 0xF7. -/
def isalpha (c : Nat) : Bool :=
  (65 ≤ c && c ≤ 90) || (97 ≤ c && c ≤ 122) ||
    (192 ≤ c && c ≤ 255 && c ≠ 215 && c ≠ 247)

def isalnum (c : Nat) : Bool := isalpha c || isdigit c

/-! ### crc32 (kernel `crc32`, little-endian, polynomial 0xEDB88320) -/

def crc32_poly : Nat := 0xEDB88320

/-- One bit step of the CRC-32 shift register. -/
def crc32_bit (c : Nat) : Nat :=
  if c % 2 = 1 then (c / 2) ^^^ crc32_poly else c / 2

/-- Fold one byte into the CRC-32 state. -/
def crc32_byte (c b : Nat) : Nat :=
  crc32_bit (crc32_bit (crc32_bit (crc32_bit
    (crc32_bit (crc32_bit (crc32_bit (crc32_bit (c ^^^ b))))))))

/-- `crc32(seed, data, len)` over a byte list. -/
def crc32 (seed : Nat) (data : List Nat) : Nat :=
  data.foldl crc32_byte seed

/-! ### byte-buffer helpers -/

/-- Read `n` bytes starting at a buffer: models `memcpy`/byte scans over a C
buffer of which the embedding keeps the byte list (reads past the kept bytes
yield 0). -/
def readBuf (buf : List Nat) (n : Nat) : List Nat :=
  (List.range n).map fun i => buf.getD i 0

/-- Scan at most `n` bytes for printability, stopping at the first NUL byte:
models the loop of `hinata_is_printable_string`. -/
def cstrPrintableScan : List Nat → Nat → Bool
  | _, 0 => true
  | [], _ => true
  | c :: rest, n + 1 =>
      if c = 0 then true else (isprint c || isspace c) && cstrPrintableScan rest n

/-- `strstr(s, "..") != NULL` for a byte string. -/
def hasDotDot : List Nat → Bool
  | 46 :: 46 :: _ => true
  | _ :: rest => hasDotDot rest
  | [] => false

/-! ## Memory Manager (kernel/hinata_memory.c) -/

def HINATA_MEMORY_MAX_SINGLE : Nat := 16 * 1024 * 1024
def HINATA_MEMORY_MAX_TOTAL : Nat := 1024 * 1024 * 1024

structure MemoryLimits where
  max_total_size : Nat
  max_single_alloc : Nat
  warning_threshold : Nat
  critical_threshold : Nat
  deriving Repr, DecidableEq

structure MemoryConfig where
  enable_tracking : Bool
  enable_pooling : Bool
  deriving Repr, DecidableEq

/-- The observable fields of `struct hinata_memory_context`. -/
structure MemoryCtx where
  initialized : Bool
  limits : MemoryLimits
  config : MemoryConfig
  total_allocated : Nat
  total_freed : Nat
  peak_usage : Nat
  allocation_count : Nat
  free_count : Nat
  oom_count : Nat
  deriving Repr, DecidableEq

/-- `total_allocated - total_freed`, the running usage computed by
`hinata_malloc` (u64 subtraction; the module keeps `total_freed ≤
total_allocated`). -/
def MemoryCtx.current_usage (ctx : MemoryCtx) : Nat :=
  ctx.total_allocated - ctx.total_freed

/-- `hinata_malloc`.  `fresh` supplies the (arbitrary, uninitialized) byte at
each offset of a freshly allocated block; `osOk` is whether the underlying
pool/kmalloc/vmalloc allocation succeeds, `trackOk` whether the tracking-block
allocation succeeds. -/
def hinata_malloc (ctx : MemoryCtx) (size : Nat) (fresh : Nat → Nat)
    (osOk trackOk : Bool) : Option (List Nat) × MemoryCtx :=
  if ¬ctx.initialized ∨ size = 0 then (none, ctx)
  else if size > ctx.limits.max_single_alloc then
    (none, { ctx with oom_count := ctx.oom_count + 1 })
  else if ctx.current_usage + size > ctx.limits.max_total_size then
    (none, { ctx with oom_count := ctx.oom_count + 1 })
  else if ¬osOk then
    (none, { ctx with oom_count := ctx.oom_count + 1 })
  else if ctx.config.enable_tracking ∧ ¬trackOk then
    -- tracking failed: the fresh memory is released again and NULL returned
    -- without touching the statistics (the source returns before the updates)
    (none, ctx)
  else
    let ctx1 := { ctx with
      total_allocated := ctx.total_allocated + size,
      allocation_count := ctx.allocation_count + 1 }
    (some ((List.range size).map fresh),
     { ctx1 with peak_usage := max ctx1.peak_usage ctx1.current_usage })

/-- `hinata_calloc`: overflow-guarded multiply, then `hinata_malloc` and
`memset(ptr, 0, total_size)`. -/
def hinata_calloc (ctx : MemoryCtx) (nmemb size : Nat) (fresh : Nat → Nat)
    (osOk trackOk : Bool) : Option (List Nat) × MemoryCtx :=
  if nmemb ≠ 0 ∧ size > SIZE_MAX / nmemb then (none, ctx)
  else
    match hinata_malloc ctx (nmemb * size) fresh osOk trackOk with
    | (none, ctx1) => (none, ctx1)
    | (some buf, ctx1) => (some (buf.map fun _ => 0), ctx1)

/-! ## Packet reference-count lifecycle (core/hinata_packet.c) -/

/-- The lifecycle-relevant observables of one packet object:
`ref_count` (the `atomic_t`), how many times `hinata_packet_destroy` has run
(each run frees the content and metadata buffers and the structure once), and
whether the packet is still registered in the packet hash table. -/
structure PacketLife where
  ref_count : Int
  destroy_count : Nat
  in_hash : Bool
  deriving Repr, DecidableEq

/-- State right after `hinata_packet_create`: refcount 1, registered. -/
def initialPacketLife : PacketLife := ⟨1, 0, true⟩

def aliveState (n : Nat) : PacketLife := ⟨(n : Int), 0, true⟩

def deadState : PacketLife := ⟨0, 1, false⟩

inductive RefOp
  | get
  | put
  deriving Repr, DecidableEq

/-- One `hinata_packet_get` / `hinata_packet_put` step.  `put` performs
`atomic_dec_and_test` and, on reaching zero, `hinata_packet_destroy`
(removes the hash registration and frees content/metadata/structure). -/
def refStep (s : PacketLife) : RefOp → PacketLife
  | .get => { s with ref_count := s.ref_count + 1 }
  | .put =>
      if s.ref_count - 1 = 0 then
        { ref_count := 0, destroy_count := s.destroy_count + 1, in_hash := false }
      else
        { s with ref_count := s.ref_count - 1 }

def runRefOps : PacketLife → List RefOp → PacketLife
  | s, [] => s
  | s, op :: rest => runRefOps (refStep s op) rest

def nGets : List RefOp → Nat
  | [] => 0
  | .get :: r => nGets r + 1
  | .put :: r => nGets r

def nPuts : List RefOp → Nat
  | [] => 0
  | .get :: r => nPuts r
  | .put :: r => nPuts r + 1

/-! ## Worker pool and task queue (hinata_worker.c) -/

def HINATA_WORKER_PRIORITY_LEVELS : Nat := 8
def HINATA_WORKER_TASK_TIMEOUT : Nat := 30000

inductive TaskState
  | pending
  | running
  | completed
  | failed
  | cancelled
  | tmo
  deriving Repr, DecidableEq

/-- The scheduler-relevant fields of `struct hinata_task`.  `func` and `data`
are the raw pointer values (0 is NULL); the timing/result/debug fields play no
role in any claim and are omitted. -/
structure Task where
  id : Nat
  ttype : Nat
  state : TaskState
  flags : Nat
  priority : Nat
  func : Nat
  data : Nat
  data_size : Nat
  retry_count : Nat
  max_retries : Nat
  deriving Repr, DecidableEq

/-- `struct hinata_task_queue`: eight priority lanes (index 0 = highest) plus
the counters kept under the queue lock. -/
structure TaskQueue where
  tasks : List (List Task)
  count : Int
  pending_count : Int
  tasks_queued : Nat
  tasks_cancelled : Nat
  deriving Repr, DecidableEq

def emptyTaskQueue : TaskQueue :=
  ⟨List.replicate HINATA_WORKER_PRIORITY_LEVELS [], 0, 0, 0, 0⟩

/-- `hinata_task_queue_add`: clamp the priority into range, append to the tail
of that lane, bump the counters. -/
def hinata_task_queue_add (q : TaskQueue) (t : Task) : TaskQueue :=
  let p := if t.priority ≥ HINATA_WORKER_PRIORITY_LEVELS then
    HINATA_WORKER_PRIORITY_LEVELS - 1 else t.priority
  let t1 := { t with priority := p }
  { q with
    tasks := q.tasks.set p (q.tasks.getD p [] ++ [t1]),
    count := q.count + 1,
    pending_count := q.pending_count + 1,
    tasks_queued := q.tasks_queued + 1 }

/-- Scan the lanes from highest priority (index 0) to lowest and pop the head
of the first non-empty lane. -/
def queuePop : List (List Task) → Option (Task × List (List Task))
  | [] => none
  | [] :: rest =>
      match queuePop rest with
      | none => none
      | some (t, rest1) => some (t, [] :: rest1)
  | (t :: ts) :: rest => some (t, ts :: rest)

/-- `hinata_task_queue_get`. -/
def hinata_task_queue_get (q : TaskQueue) : Option Task × TaskQueue :=
  match queuePop q.tasks with
  | none => (none, q)
  | some (t, lanes) =>
      (some t, { q with tasks := lanes, count := q.count - 1,
                        pending_count := q.pending_count - 1 })

/-- Repeatedly dequeue (at most `n` times, stopping on an empty queue):
the order in which worker threads would receive the tasks. -/
def drainQueue : Nat → TaskQueue → List Task
  | 0, _ => []
  | n + 1, q =>
      match hinata_task_queue_get q with
      | (none, _) => []
      | (some t, q1) => t :: drainQueue n q1

/-- `hinata_task_alloc`: every freshly allocated task gets
`state = PENDING` and `priority = 0`; the interface offers no priority
parameter.  `allocOk` is whether `kzalloc` succeeds; the returned `Nat` is the
advanced task-id counter. -/
def hinata_task_alloc (counter : Nat) (ttype func data data_size flags : Nat)
    (allocOk : Bool) : Option (Task × Nat) :=
  if func = 0 then none
  else if ¬allocOk then none
  else
    some ({ id := counter + 1, ttype := ttype, state := .pending,
            flags := flags, priority := 0, func := func, data := data,
            data_size := data_size, retry_count := 0, max_retries := 3 },
          counter + 1)

/-- The worker-module globals touched by `hinata_submit_task`. -/
structure WorkerSystem where
  queue : TaskQueue
  task_id_counter : Nat
  running : Bool
  tasks_distributed : Nat
  deriving Repr, DecidableEq

/-- `hinata_submit_task`: guard, allocate, enqueue, return the task id. -/
def hinata_submit_task (s : WorkerSystem) (ttype func data data_size flags : Nat)
    (allocOk : Bool) : Int × WorkerSystem :=
  if func = 0 then (-EINVAL, s)
  else if ¬s.running then (-ENODEV, s)
  else
    match hinata_task_alloc s.task_id_counter ttype func data data_size flags allocOk with
    | none => (-ENOMEM, s)
    | some (t, c1) =>
        ((t.id : Int),
         { s with queue := hinata_task_queue_add s.queue t,
                  task_id_counter := c1,
                  tasks_distributed := s.tasks_distributed + 1 })

/-- `hinata_wait_task` is an unimplemented stub in the source
(`TODO: Implement task tracking and waiting`). -/
def hinata_wait_task (_task_id _timeout_ms : Nat) : Int := -ENOSYS

/-- `hinata_cancel_task` is an unimplemented stub in the source
(`TODO: Implement task cancellation`): it returns `-ENOSYS` unconditionally
and never touches the queue. -/
def hinata_cancel_task (_task_id : Nat) : Int := -ENOSYS

/-- One submission request: the arguments a caller passes to
`hinata_submit_task`. -/
structure SubmitReq where
  ttype : Nat
  func : Nat
  data : Nat
  data_size : Nat
  flags : Nat
  deriving Repr, DecidableEq

/-- Submit a list of requests in order (each with a succeeding allocator). -/
def submitAll (s : WorkerSystem) : List SubmitReq → WorkerSystem
  | [] => s
  | r :: rs =>
      submitAll (hinata_submit_task s r.ttype r.func r.data r.data_size r.flags true).2 rs

/-- The task `hinata_task_alloc` builds for request `r` when the id counter
stands at `c`. -/
def mkSubmittedTask (c : Nat) (r : SubmitReq) : Task :=
  { id := c + 1, ttype := r.ttype, state := .pending, flags := r.flags,
    priority := 0, func := r.func, data := r.data, data_size := r.data_size,
    retry_count := 0, max_retries := 3 }

/-- The tasks a request list produces, in submission order. -/
def expectedTasks (c : Nat) : List SubmitReq → List Task
  | [] => []
  | r :: rs => mkSubmittedTask c r :: expectedTasks (c + 1) rs

/-! ## Packet model (core/hinata_packet.h, core/hinata_packet.c) -/

def HINATA_PACKET_MAGIC : Nat := 0x48494E41
def HINATA_PACKET_VERSION : Nat := 1
def HINATA_MAX_PACKET_SIZE : Nat := 1024 * 1024
def HINATA_MAX_CONTENT_SIZE : Nat := 512 * 1024
def HINATA_MAX_METADATA_SIZE : Nat := 64 * 1024
def HINATA_UUID_LENGTH : Nat := 37
def HINATA_MAX_SOURCE_LENGTH : Nat := 256
def HINATA_MAX_TAGS : Nat := 16
def HINATA_MAX_TAG_LENGTH : Nat := 64
def HINATA_PACKET_TYPE_MAX : Nat := 11

/-- `sizeof(struct hinata_packet)`.  The exact value is ABI dependent; the
embedding only needs one fixed constant used consistently by
`hinata_packet_create`, the integrity check and the storage serializer, and no
theorem below depends on the value. -/
def sizeof_hinata_packet : Nat := 824

/-- `struct hinata_packet`.  The `content`/`metadata` pointers become the
pointed-to byte lists (`none` is NULL); `id`, `source` and each tag row are
C strings. -/
structure Packet where
  magic : Nat
  version : Nat
  id : List Nat
  ptype : Nat
  priority : Nat
  status : Nat
  size : Nat
  content_size : Nat
  metadata_size : Nat
  content_hash : Nat
  created_at : Nat
  updated_at : Nat
  source : List Nat
  tags : List (List Nat)
  tag_count : Nat
  content : Option (List Nat)
  metadata : Option (List Nat)
  ref_count : Int
  flags : Nat
  deriving Repr, DecidableEq

/-- UUID shape check of `hinata_validate_uuid_format`: exactly 36 characters,
hyphens at 8/13/18/23, hex digits elsewhere. -/
def hinata_validate_uuid_format (u : List Nat) : Bool :=
  u.length = 36 &&
    (List.range 36).all fun i =>
      if i = 8 || i = 13 || i = 18 || i = 23 then u.getD i 0 = 45
      else isxdigit (u.getD i 0)

/-- Modelled from the spec: `hinata_packet_is_valid_type` is declared in
`core/hinata_packet.h` but its definition is not under src/.  The spec lists
the valid types text/markdown/code/data/link/image/audio/video/document/
archive/custom, i.e. the enum values below `HINATA_PACKET_TYPE_MAX`. -/
def hinata_packet_is_valid_type (t : Nat) : Bool :=
  t < HINATA_PACKET_TYPE_MAX

/-- Modelled from the spec: `hinata_packet_is_valid_priority` is declared in
`core/hinata_packet.h` but its definition is not under src/.  The spec lists
the priorities low/normal/high/critical (enum values 0..3). -/
def hinata_packet_is_valid_priority (p : Nat) : Bool := p ≤ 3

/-- Modelled from the spec: `hinata_packet_is_valid_status` is declared in
`core/hinata_packet.h` but its definition is not under src/.  The spec lists
the statuses created/processing/stored/indexed/error/archived (enum values
0..5). -/
def hinata_packet_is_valid_status (s : Nat) : Bool := s ≤ 5

/-- `hinata_packet_validate_internal` (core/hinata_packet.c), the check used
by `hinata_packet_validate` and hence by `hinata_packet_clone`. -/
def hinata_packet_validate_internal (p : Packet) : Int :=
  if p.magic ≠ HINATA_PACKET_MAGIC then -EINVAL
  else if p.version ≠ HINATA_PACKET_VERSION then -EINVAL
  else if p.ptype ≥ HINATA_PACKET_TYPE_MAX then -EINVAL
  else if ¬hinata_validate_uuid_format p.id then -EINVAL
  else if p.content = none ∨ p.content_size = 0 then -EINVAL
  else if p.content_size > HINATA_MAX_CONTENT_SIZE then -EINVAL
  else if p.metadata_size > 0 ∧ p.metadata = none then -EINVAL
  else if p.metadata_size > HINATA_MAX_METADATA_SIZE then -EINVAL
  else if p.source.length = 0 then -EINVAL
  else if p.tag_count > HINATA_MAX_TAGS then -EINVAL
  else if crc32 0 (readBuf (p.content.getD []) p.content_size) ≠ p.content_hash then -EINVAL
  else if p.created_at = 0 ∨ p.updated_at = 0 then -EINVAL
  else if p.updated_at < p.created_at then -EINVAL
  else 0

/-- `hinata_packet_validate`: null guard plus the internal check (the
statistics counter it bumps is not observed by any claim). -/
def hinata_packet_validate (p : Option Packet) : Int :=
  match p with
  | none => -EINVAL
  | some pk => hinata_packet_validate_internal pk

/-- Tag rows copied by `hinata_packet_create`: rows below `tag_count` are
`strncpy`-truncated to 63 bytes, the remaining rows stay zeroed. -/
def buildTags (tags : List (List Nat)) (tag_count : Nat) : List (List Nat) :=
  (List.range HINATA_MAX_TAGS).map fun i =>
    if i < tag_count then (tags.getD i []).take (HINATA_MAX_TAG_LENGTH - 1) else []

/-- `hinata_packet_create`.  `uuid` is the string produced by
`hinata_generate_uuid`, `now` the `ktime_get_real_ts64` timestamp in
nanoseconds, `allocOk` whether all allocations succeed. -/
def hinata_packet_create (ptype : Nat) (content : Option (List Nat))
    (content_size : Nat) (metadata : Option (List Nat)) (metadata_size : Nat)
    (source : Option (List Nat)) (tags : List (List Nat)) (tag_count : Nat)
    (uuid : List Nat) (now : Nat) (allocOk : Bool) : Option Packet :=
  match content with
  | none => none
  | some cbuf =>
    if content_size = 0 ∨ content_size > HINATA_MAX_CONTENT_SIZE then none
    else if metadata ≠ none ∧ metadata_size > HINATA_MAX_METADATA_SIZE then none
    else
      match source with
      | none => none
      | some src =>
        if src.length = 0 then none
        else if tag_count > HINATA_MAX_TAGS then none
        else
          let total_size := sizeof_hinata_packet + content_size +
            (if metadata ≠ none then metadata_size else 0)
          if total_size > HINATA_MAX_PACKET_SIZE then none
          else if ¬allocOk then none
          else
            let contentCopy := readBuf cbuf content_size
            some { magic := HINATA_PACKET_MAGIC, version := HINATA_PACKET_VERSION,
                   id := uuid, ptype := ptype, priority := 0, status := 0,
                   size := total_size, content_size := content_size,
                   metadata_size := metadata_size,
                   content_hash := crc32 0 contentCopy,
                   created_at := now, updated_at := now,
                   source := src.take (HINATA_MAX_SOURCE_LENGTH - 1),
                   tags := buildTags tags tag_count, tag_count := tag_count,
                   content := some contentCopy,
                   metadata := match metadata with
                     | some mbuf =>
                         if metadata_size > 0 then some (readBuf mbuf metadata_size) else none
                     | none => none,
                   ref_count := 1, flags := 0 }

/-- `hinata_packet_clone`: validate the original, then create a fresh packet
(with a new UUID and new timestamps) from the same content, metadata, source
and tags. -/
def hinata_packet_clone (orig : Packet) (uuid : List Nat) (now : Nat)
    (allocOk : Bool) : Option Packet :=
  if hinata_packet_validate (some orig) < 0 then none
  else
    hinata_packet_create orig.ptype orig.content orig.content_size
      orig.metadata orig.metadata_size (some orig.source) orig.tags
      orig.tag_count uuid now allocOk

/-! ## Validation subsystem (core/hinata_validation.h/.c) -/

def HINATA_VALIDATE_BASIC : Nat := 1
def HINATA_VALIDATE_CONTENT : Nat := 2
def HINATA_VALIDATE_METADATA : Nat := 4
def HINATA_VALIDATE_SECURITY : Nat := 8
def HINATA_VALIDATE_INTEGRITY : Nat := 16
def HINATA_VALIDATE_FORCE_RECHECK : Nat := 32
def HINATA_VALIDATE_DEEP : Nat := 64
def HINATA_VALIDATE_STRICT : Nat := 128

def HINATA_VALIDATE_MINIMAL : Nat := HINATA_VALIDATE_BASIC

def HINATA_VALIDATE_STANDARD : Nat :=
  HINATA_VALIDATE_BASIC ||| HINATA_VALIDATE_CONTENT ||| HINATA_VALIDATE_INTEGRITY

def HINATA_VALIDATE_COMPREHENSIVE : Nat :=
  HINATA_VALIDATE_BASIC ||| HINATA_VALIDATE_CONTENT ||| HINATA_VALIDATE_METADATA |||
    HINATA_VALIDATE_SECURITY ||| HINATA_VALIDATE_INTEGRITY

def HINATA_VALIDATE_PARANOID : Nat :=
  HINATA_VALIDATE_COMPREHENSIVE ||| HINATA_VALIDATE_DEEP |||
    HINATA_VALIDATE_STRICT ||| HINATA_VALIDATE_FORCE_RECHECK

def HINATA_VALIDATION_CACHE_SIZE : Nat := 256

/-- The validation-cache TTL: 5 minutes of jiffies. -/
def VALIDATION_CACHE_TTL : Nat := 5 * 60 * HZ

/-- `hinata_validate_source_format`. -/
def hinata_validate_source_format (source : List Nat) : Bool :=
  source.length ≠ 0 && source.length < HINATA_MAX_SOURCE_LENGTH &&
    cstrPrintableScan source source.length

/-- `hinata_validate_timestamps` (checked against the current real time). -/
def hinata_validate_timestamps (created_at updated_at now : Nat) : Bool :=
  created_at ≠ 0 && updated_at ≠ 0 && created_at ≤ updated_at &&
    created_at ≤ now && updated_at ≤ now

/-- One tag of `hinata_validate_tags_format`: non-empty, below the length
bound, alphanumeric plus underscore and hyphen. -/
def validTag (tag : List Nat) : Bool :=
  tag.length ≠ 0 && tag.length < HINATA_MAX_TAG_LENGTH &&
    tag.all fun c => isalnum c || c = 95 || c = 45

/-- `hinata_validate_tags_format`. -/
def hinata_validate_tags_format (tags : List (List Nat)) (count : Nat) : Bool :=
  count ≤ HINATA_MAX_TAGS &&
    (List.range count).all fun i => validTag (tags.getD i [])

/-- `hinata_validate_packet_structure` (core/hinata_validation.c).  `now` is
the current real time in nanoseconds used by the timestamp check. -/
def hinata_validate_packet_structure (p : Packet) (now : Nat) : Int :=
  if p.magic ≠ HINATA_PACKET_MAGIC then -EINVAL
  else if p.version ≠ HINATA_PACKET_VERSION then -EINVAL
  else if ¬hinata_validate_uuid_format p.id then -EINVAL
  else if ¬hinata_packet_is_valid_type p.ptype then -EINVAL
  else if ¬hinata_packet_is_valid_priority p.priority then -EINVAL
  else if ¬hinata_packet_is_valid_status p.status then -EINVAL
  else if p.content_size = 0 ∨ p.content_size > HINATA_MAX_CONTENT_SIZE then -EINVAL
  else if p.metadata_size > HINATA_MAX_METADATA_SIZE then -EINVAL
  else if p.content = none then -EINVAL
  else if p.metadata_size > 0 ∧ p.metadata = none then -EINVAL
  else if ¬hinata_validate_source_format p.source then -EINVAL
  else if ¬hinata_validate_timestamps p.created_at p.updated_at now then -EINVAL
  else if ¬hinata_validate_tags_format p.tags p.tag_count then -EINVAL
  else if p.ref_count ≤ 0 then -EINVAL
  else 0

/-- `hinata_validate_content_integrity`: recompute the CRC-32 over the
content and compare. -/
def hinata_validate_content_integrity (content : Option (List Nat))
    (size : Nat) (expected_hash : Nat) : Bool :=
  match content with
  | none => false
  | some buf => size ≠ 0 && crc32 0 (readBuf buf size) = expected_hash

/-- `hinata_validate_packet_content`. -/
def hinata_validate_packet_content (p : Packet) : Int :=
  match p.content with
  | none => -EINVAL
  | some buf =>
    if ¬hinata_validate_content_integrity (some buf) p.content_size p.content_hash then
      -EINVAL
    else if p.ptype = 0 ∨ p.ptype = 1 ∨ p.ptype = 2 then
      -- TEXT / MARKDOWN / CODE: printable-text check
      if ¬cstrPrintableScan (readBuf buf p.content_size) p.content_size then -EINVAL else 0
    else if p.ptype = 4 then
      -- LINK: bounded length
      if p.content_size > 2048 then -EINVAL else 0
    else if p.ptype = 3 ∨ (5 ≤ p.ptype ∧ p.ptype ≤ 9) then
      -- binary types: size check
      if p.content_size > HINATA_MAX_CONTENT_SIZE then -EINVAL else 0
    else 0

/-- `hinata_validate_metadata_format`: every byte printable or whitespace. -/
def hinata_validate_metadata_format (metadata : Option (List Nat)) (size : Nat) : Bool :=
  match metadata with
  | none => false
  | some buf =>
    size ≠ 0 && (readBuf buf size).all fun c => isprint c || isspace c

/-- `hinata_validate_packet_metadata`. -/
def hinata_validate_packet_metadata (p : Packet) : Int :=
  if p.metadata_size = 0 then 0
  else if p.metadata = none then -EINVAL
  else if ¬hinata_validate_metadata_format p.metadata p.metadata_size then -EINVAL
  else 0

/-- `hinata_validate_packet_security`.  The NUL scan runs over indices
`i < content_size - 1` exactly as in the source (the last byte is skipped). -/
def hinata_validate_packet_security (p : Packet) : Int :=
  if (p.ptype = 0 ∨ p.ptype = 2) ∧
      ((readBuf (p.content.getD []) p.content_size).take (p.content_size - 1)).any
        (fun c => c = 0) then
    -EINVAL
  else if hasDotDot p.source ∨ p.source.contains 47 then -EINVAL
  else if ¬((List.range p.tag_count).all fun i =>
      (p.tags.getD i []).length < HINATA_MAX_TAG_LENGTH) then -EINVAL
  else 0

/-- `hinata_validate_packet_integrity`: recomputed CRC-32 and recomputed total
size must match the stored fields. -/
def hinata_validate_packet_integrity (p : Packet) : Int :=
  match p.content with
  | none => -EINVAL
  | some buf =>
    if crc32 0 (readBuf buf p.content_size) ≠ p.content_hash then -EINVAL
    else
      let expected_size := sizeof_hinata_packet + p.content_size +
        (if p.metadata_size > 0 then p.metadata_size else 0)
      if p.size ≠ expected_size then -EINVAL else 0

/-- The flag-gated chain of checks inside `hinata_validate_packet_full`
(everything between the cache lookup and the cache insertion). -/
def hinata_validate_packet_checks (p : Packet) (flags now : Nat) : Int :=
  let rs := hinata_validate_packet_structure p now
  if rs < 0 then rs
  else
    let rc := if flags &&& HINATA_VALIDATE_CONTENT ≠ 0 then
      hinata_validate_packet_content p else 0
    if rc < 0 then rc
    else
      let rm := if flags &&& HINATA_VALIDATE_METADATA ≠ 0 ∧ p.metadata ≠ none then
        hinata_validate_packet_metadata p else 0
      if rm < 0 then rm
      else
        let rsec := if flags &&& HINATA_VALIDATE_SECURITY ≠ 0 then
          hinata_validate_packet_security p else 0
        if rsec < 0 then rsec
        else
          let ri := if flags &&& HINATA_VALIDATE_INTEGRITY ≠ 0 then
            hinata_validate_packet_integrity p else 0
          if ri < 0 then ri else 0

/-- `struct validation_cache_entry`; a zeroed slot has an empty id string. -/
structure VCacheEntry where
  id : List Nat
  content_hash : Nat
  is_valid : Bool
  timestamp : Nat
  deriving Repr, DecidableEq

def zeroVCacheEntry : VCacheEntry := ⟨[], 0, false, 0⟩

/-- The validation-module globals: the fixed 256-slot cache ring, the ring
index and the statistics counters. -/
structure VState where
  cache : List VCacheEntry
  cache_index : Nat
  validation_count : Nat
  success_count : Nat
  failure_count : Nat
  deriving Repr, DecidableEq

def initialVState : VState :=
  ⟨List.replicate HINATA_VALIDATION_CACHE_SIZE zeroVCacheEntry, 0, 0, 0, 0⟩

/-- `hinata_validation_cache_lookup`: scan the slots in order; the first slot
whose id string and content hash match decides — within the TTL its verdict is
returned (1 valid / 0 invalid), otherwise the slot is zeroed and the scan
stops with -1 (not found). -/
def vcacheLookup : List VCacheEntry → List Nat → Nat → Nat → Int × List VCacheEntry
  | [], _, _, _ => (-1, [])
  | e :: rest, id, h, t =>
      if e.id = id ∧ e.content_hash = h then
        if t < e.timestamp + VALIDATION_CACHE_TTL then
          ((if e.is_valid then 1 else 0), e :: rest)
        else
          (-1, zeroVCacheEntry :: rest)
      else
        let r := vcacheLookup rest id h t
        (r.1, e :: r.2)

/-- `hinata_validation_cache_add`: bump the ring index and overwrite that slot
(the stored id is `strncpy`-truncated to 36 bytes); `t` is the jiffies
timestamp recorded in the entry. -/
def vcacheAdd (vs : VState) (id : List Nat) (h : Nat) (v : Bool) (t : Nat) : VState :=
  let ci := vs.cache_index + 1
  { vs with
    cache_index := ci,
    cache := vs.cache.set (ci % HINATA_VALIDATION_CACHE_SIZE)
      ⟨id.take (HINATA_UUID_LENGTH - 1), h, v, t⟩ }

/-- `hinata_validate_packet_full`.  `jif` is the current jiffies value used by
the cache, `now` the current real time used by the timestamp check. -/
def hinata_validate_packet_full (vs : VState) (p : Option Packet) (flags : Nat)
    (jif now : Nat) : Int × VState :=
  match p with
  | none => (-EINVAL, { vs with failure_count := vs.failure_count + 1 })
  | some pk =>
    let vs1 := { vs with validation_count := vs.validation_count + 1 }
    let lr :=
      if flags &&& HINATA_VALIDATE_FORCE_RECHECK = 0 then
        vcacheLookup vs1.cache pk.id pk.content_hash jif
      else (-1, vs1.cache)
    if lr.1 > 0 then
      (0, { vs1 with cache := lr.2, success_count := vs1.success_count + 1 })
    else if lr.1 = 0 then
      (-EINVAL, { vs1 with cache := lr.2, failure_count := vs1.failure_count + 1 })
    else
      let vs2 := { vs1 with cache := lr.2 }
      let r := hinata_validate_packet_checks pk flags now
      if r < 0 then
        let vs3 := vcacheAdd vs2 pk.id pk.content_hash false jif
        (r, { vs3 with failure_count := vs3.failure_count + 1 })
      else
        let vs3 := vcacheAdd vs2 pk.id pk.content_hash true jif
        (0, { vs3 with success_count := vs3.success_count + 1 })

/-- Modelled from the spec: the C function `hinata_validate_packet` and its
flag `HINATA_VALIDATION_FLAG_FULL` — the validation entry point that
`hinata_storage_store_packet` calls — are not defined anywhere under src/.
The spec states: "`store_packet`: validates the packet at `STANDARD` level"
with `STANDARD` = BASIC+CONTENT+INTEGRITY, so the call is modelled as
`hinata_validate_packet_full` at `HINATA_VALIDATE_STANDARD`. -/
def hinata_validate_packet (vs : VState) (p : Option Packet) (jif now : Nat) :
    Int × VState :=
  hinata_validate_packet_full vs p HINATA_VALIDATE_STANDARD jif now

/-! ## Storage region and cache layer (storage/hinata_storage.c) -/

def HINATA_STORAGE_MAX_REGIONS : Nat := 64
def HINATA_STORAGE_CACHE_SIZE : Nat := 1024
def HINATA_STORAGE_TYPE_PACKET : Nat := 1
def HINATA_STORAGE_FLAG_DIRTY : Nat := 1
def HINATA_STORAGE_FLAG_CACHED : Nat := 2

/-- `HINATA_CACHE_DEFAULT_TTL` (storage/hinata_storage.h): 60 s in ns. -/
def HINATA_CACHE_DEFAULT_TTL : Nat := 60 * 1000000000

/-- `sizeof(struct hinata_storage_header)` (`__packed`): the region file
header written by `hinata_storage_region_init`. -/
def HINATA_STORAGE_HEADER_SIZE : Nat := 124

structure StorageStats where
  packets_stored : Nat
  packets_deleted : Nat
  bytes_written : Nat
  cache_hits : Nat
  cache_misses : Nat
  deriving Repr, DecidableEq

def zeroStorageStats : StorageStats := ⟨0, 0, 0, 0, 0⟩

/-- `struct hinata_storage_block`: the per-block metadata record. -/
structure StorageBlock where
  id : Nat
  btype : Nat
  size : Nat
  flags : Nat
  checksum : Nat
  offset : Nat
  ref_count : Int
  access_time : Nat
  modify_time : Nat
  deriving Repr, DecidableEq

/-- `struct hinata_storage_region`.  `hasFile` is `file != NULL` (an unused
region slot has no file); `blocks` holds the entries of the region's in-memory
block index (`block_tree`). -/
structure StorageRegion where
  id : Nat
  rtype : Nat
  flags : Nat
  size : Nat
  used_size : Nat
  block_count : Nat
  hasFile : Bool
  blocks : List StorageBlock
  free_list : List StorageBlock
  stats : StorageStats
  deriving Repr, DecidableEq

/-- An unused region slot (all fields zero, no file). -/
def defaultRegion : StorageRegion :=
  ⟨0, 0, 0, 0, 0, 0, false, [], [], zeroStorageStats⟩

/-- A region slot right after `hinata_storage_region_init` succeeded: file
open, header written, `used_size` = header size, no blocks. -/
def freshRegion (rid : Nat) (rtype : Nat) (rsize : Nat) : StorageRegion :=
  { id := rid, rtype := rtype, flags := 0, size := rsize,
    used_size := HINATA_STORAGE_HEADER_SIZE, block_count := 0,
    hasFile := true, blocks := [], free_list := [], stats := zeroStorageStats }

/-- `struct hinata_storage_cache_entry`.  The cached buffer holds a byte copy
of the serialized packet (leading `struct hinata_packet` image followed by the
raw content and metadata bytes); the load path only ever reinterprets the
leading struct image, so `data` keeps that image as a `Packet` value. -/
structure SCacheEntry where
  key : List Nat
  data : Packet
  size : Nat
  flags : Nat
  access_count : Nat
  last_access : Nat
  expiry_time : Nat
  ref_count : Int
  deriving Repr, DecidableEq

/-- The storage-module globals.  The hash-bucketed cache with its per-bucket
chains is modelled as one entry list in insertion order (newest first), which
is observationally equivalent for the key-based get/put/remove operations;
the LRU list ordering is not modelled (nothing in the source ever evicts from
it). -/
structure StorageState where
  regions : List StorageRegion
  region_count : Nat
  cache : List SCacheEntry
  cache_size : Nat
  stats : StorageStats
  initialized : Bool
  deriving Repr, DecidableEq

/-- The storage context after `hinata_storage_init`: 64 empty region slots,
empty cache. -/
def initialStorageState : StorageState :=
  { regions := (List.range HINATA_STORAGE_MAX_REGIONS).map fun i =>
      { defaultRegion with id := i },
    region_count := 0, cache := [], cache_size := 0,
    stats := zeroStorageStats, initialized := true }

/-- `hinata_storage_cache_get`: scan for the first entry whose key string
matches; on a hit bump its access count and refcount, refresh `last_access`
and hand back the cached image and size.  (No TTL check happens here.) -/
def hinata_storage_cache_get : List SCacheEntry → List Nat → Nat →
    Option (Packet × Nat) × List SCacheEntry
  | [], _, _ => (none, [])
  | e :: rest, key, now =>
      if e.key = key then
        (some (e.data, e.size),
         { e with access_count := e.access_count + 1, last_access := now,
                  ref_count := e.ref_count + 1 } :: rest)
      else
        let r := hinata_storage_cache_get rest key now
        (r.1, e :: r.2)

/-- `hinata_storage_cache_put`: allocate an entry and a copy of the data and
add both to the front of the bucket chain (`entryOk`/`dataOk` are the two
allocations; the key is `strncpy`-truncated to 36 bytes). -/
def hinata_storage_cache_put (cache : List SCacheEntry) (csize : Nat)
    (key : List Nat) (img : Packet) (dsize now : Nat) (entryOk dataOk : Bool) :
    Int × List SCacheEntry × Nat :=
  if dsize = 0 then (-EINVAL, cache, csize)
  else if ¬entryOk then (-ENOMEM, cache, csize)
  else if ¬dataOk then (-ENOMEM, cache, csize)
  else
    (0,
     { key := key.take (HINATA_UUID_LENGTH - 1), data := img, size := dsize,
       flags := HINATA_STORAGE_FLAG_CACHED, access_count := 1,
       last_access := now, expiry_time := now + HINATA_CACHE_DEFAULT_TTL,
       ref_count := 1 } :: cache,
     csize + 1)

/-- `hinata_storage_cache_remove`: unlink and free the first entry with the
matching key. -/
def hinata_storage_cache_remove : List SCacheEntry → Nat → List Nat →
    Int × List SCacheEntry × Nat
  | [], csize, _ => (-ENOENT, [], csize)
  | e :: rest, csize, key =>
      if e.key = key then (0, rest, csize - 1)
      else
        let r := hinata_storage_cache_remove rest csize key
        (r.1, e :: r.2.1, r.2.2)

/-- `hinata_storage_cache_put_ref`: drop the reference taken by a cache hit. -/
def hinata_storage_cache_put_ref : List SCacheEntry → List Nat → List SCacheEntry
  | [], _ => []
  | e :: rest, key =>
      if e.key = key then { e with ref_count := e.ref_count - 1 } :: rest
      else e :: hinata_storage_cache_put_ref rest key

/-- `hinata_storage_store_packet`.  `jif`/`now` are the current jiffies and
real time, `mallocOk` is the serialization-buffer allocation, `writeOk`
whether `kernel_write` writes the full buffer, `ceOk`/`cdOk` the two
allocations inside the cache insertion (whose return value the source
ignores). -/
def hinata_storage_store_packet (st : StorageState) (vs : VState)
    (p : Option Packet) (region_id : Nat) (jif now : Nat)
    (mallocOk writeOk ceOk cdOk : Bool) : Int × StorageState × VState :=
  match p with
  | none => (-EINVAL, st, vs)
  | some pk =>
    if ¬st.initialized then (-EINVAL, st, vs)
    else if region_id ≥ HINATA_STORAGE_MAX_REGIONS then (-EINVAL, st, vs)
    else
      let region := st.regions.getD region_id defaultRegion
      if ¬region.hasFile then (-ENOENT, st, vs)
      else
        let v := hinata_validate_packet vs (some pk) jif now
        if v.1 ≠ 0 then (-EINVAL, st, v.2)
        else
          let data_size := sizeof_hinata_packet + pk.content_size + pk.metadata_size
          if ¬mallocOk then (-ENOMEM, st, v.2)
          else
            -- serialized buffer: struct image ++ content ++ metadata; only the
            -- struct image is ever reinterpreted again
            let img := pk
            let offset := region.used_size
            if ¬writeOk then (-EIOerr, st, v.2)
            else
              -- the block record is built exactly as in the source and then,
              -- exactly as in the source, never inserted into region.blocks:
              -- the local variable goes out of scope (kernel_write has also
              -- already advanced `offset` past the written data)
              let _blk : StorageBlock :=
                { id := 0, btype := HINATA_STORAGE_TYPE_PACKET, size := data_size,
                  flags := HINATA_STORAGE_FLAG_DIRTY, checksum := 0,
                  offset := offset + data_size, ref_count := 1,
                  access_time := now, modify_time := now }
              let region1 := { region with
                used_size := region.used_size + data_size,
                block_count := region.block_count + 1,
                stats := { region.stats with
                  packets_stored := region.stats.packets_stored + 1,
                  bytes_written := region.stats.bytes_written + data_size } }
              let c := hinata_storage_cache_put st.cache st.cache_size pk.id img
                data_size now ceOk cdOk
              (0,
               { st with
                 regions := st.regions.set region_id region1,
                 cache := c.2.1, cache_size := c.2.2,
                 stats := { st.stats with
                   packets_stored := st.stats.packets_stored + 1,
                   bytes_written := st.stats.bytes_written + data_size } },
               v.2)

/-- `hinata_storage_load_packet`.  On a cache hit the cached image is cloned
(`cloneUuid`/`cloneNow`/`cloneOk` feed `hinata_packet_clone`); on a miss the
source reaches its `TODO: Implement storage search and load logic` placeholder
and returns `-ENOENT` without reading the region file. -/
def hinata_storage_load_packet (st : StorageState) (packet_id : Option (List Nat))
    (region_id : Nat) (now : Nat) (cloneUuid : List Nat) (cloneNow : Nat)
    (cloneOk : Bool) : Int × Option Packet × StorageState :=
  match packet_id with
  | none => (-EINVAL, none, st)
  | some pid =>
    if ¬st.initialized then (-EINVAL, none, st)
    else if region_id ≥ HINATA_STORAGE_MAX_REGIONS then (-EINVAL, none, st)
    else
      let g := hinata_storage_cache_get st.cache pid now
      match g.1 with
      | some (img, _sz) =>
          let clone := hinata_packet_clone img cloneUuid cloneNow cloneOk
          let cache2 := hinata_storage_cache_put_ref g.2 pid
          ((if clone = none then -ENOMEM else 0), clone,
           { st with
             cache := cache2,
             stats := { st.stats with cache_hits := st.stats.cache_hits + 1 } })
      | none =>
          let st1 := { st with
            cache := g.2,
            stats := { st.stats with cache_misses := st.stats.cache_misses + 1 } }
          let region := st1.regions.getD region_id defaultRegion
          if ¬region.hasFile then (-ENOENT, none, st1)
          else
            -- the region search/read/deserialize path is unimplemented in the
            -- source ("ret = -ENOENT; /* Placeholder */")
            (-ENOENT, none, st1)

/-- `hinata_storage_delete_packet`: remove the cache entry; the storage-block
deletion itself is an unimplemented TODO and the call reports success. -/
def hinata_storage_delete_packet (st : StorageState) (packet_id : Option (List Nat))
    (region_id : Nat) : Int × StorageState :=
  match packet_id with
  | none => (-EINVAL, st)
  | some pid =>
    if ¬st.initialized then (-EINVAL, st)
    else if region_id ≥ HINATA_STORAGE_MAX_REGIONS then (-EINVAL, st)
    else
      let region := st.regions.getD region_id defaultRegion
      if ¬region.hasFile then (-ENOENT, st)
      else
        let r := hinata_storage_cache_remove st.cache st.cache_size pid
        (0, { st with
              cache := r.2.1, cache_size := r.2.2,
              stats := { st.stats with
                packets_deleted := st.stats.packets_deleted + 1 } })

/-! ## Concrete fixtures used by the closed theorems and witnesses -/

/-- A canonical well-formed UUID string, "123e4567-e89b-12d3-a456-426614174000". -/
def uuid0 : List Nat :=
  [49, 50, 51, 101, 52, 53, 54, 55, 45, 101, 56, 57, 98, 45, 49, 50, 100, 51,
   45, 97, 52, 53, 54, 45, 52, 50, 54, 54, 49, 52, 49, 55, 52, 48, 48, 48]

/-- A valid TEXT packet with content "hi", source "test" and no tags. -/
def packetHi : Packet :=
  { magic := HINATA_PACKET_MAGIC, version := HINATA_PACKET_VERSION,
    id := uuid0, ptype := 0, priority := 0, status := 0,
    size := sizeof_hinata_packet + 2, content_size := 2, metadata_size := 0,
    content_hash := crc32 0 [104, 105], created_at := 1000, updated_at := 1000,
    source := [116, 101, 115, 116], tags := List.replicate HINATA_MAX_TAGS [],
    tag_count := 0, content := some [104, 105], metadata := none,
    ref_count := 1, flags := 0 }

/-- `packetHi` with a corrupted magic number: fails STANDARD validation. -/
def packetBadMagic : Packet := { packetHi with magic := 0 }

/-- The storage context after creating one 1 MiB packet region in slot 0. -/
def storageWithRegion0 : StorageState :=
  { initialStorageState with
    regions := freshRegion 0 HINATA_STORAGE_TYPE_PACKET 1048576 ::
      ((List.range 63).map fun i => { defaultRegion with id := i + 1 }),
    region_count := 1 }

/-- A concrete memory context right after `hinata_memory_init`. -/
def memoryCtx0 : MemoryCtx :=
  { initialized := true,
    limits := ⟨HINATA_MEMORY_MAX_TOTAL, HINATA_MEMORY_MAX_SINGLE,
      512 * 1024 * 1024, 768 * 1024 * 1024⟩,
    config := ⟨true, true⟩,
    total_allocated := 0, total_freed := 0, peak_usage := 0,
    allocation_count := 0, free_count := 0, oom_count := 0 }

/-- The storage state after storing `packetHi` into region 0 of
`storageWithRegion0` (jiffies 5, real time 2000, every allocation and the file
write succeeding). -/
def storedState : StorageState :=
  (hinata_storage_store_packet storageWithRegion0 initialVState (some packetHi)
    0 5 2000 true true true true).2.1

/-- `storedState` with `packetHi`'s cache entry removed again through the
exported `hinata_storage_cache_remove` — the "evict the cache to force a
region read" step of the round-trip scenario. -/
def evictedState : StorageState :=
  { storedState with
    cache := (hinata_storage_cache_remove storedState.cache
      storedState.cache_size uuid0).2.1,
    cache_size := (hinata_storage_cache_remove storedState.cache
      storedState.cache_size uuid0).2.2 }

end Hinata

namespace Hinata

/-! ## Helper lemmas -/

/-- A successful `hinata_malloc` hands back exactly the fresh bytes. -/
theorem hinata_malloc_some_eq (ctx : MemoryCtx) (size : Nat) (fresh : Nat → Nat)
    (osOk trackOk : Bool) (buf : List Nat) (ctx1 : MemoryCtx)
    (h : hinata_malloc ctx size fresh osOk trackOk = (some buf, ctx1)) :
    buf = (List.range size).map fresh := by
  unfold hinata_malloc at h
  split at h
  · simp at h
  · split at h
    · simp at h
    · split at h
      · simp at h
      · split at h
        · simp at h
        · split at h
          · simp at h
          · exact (Prod.mk.injEq _ _ _ _ ▸ h).1 |> Option.some.inj |> Eq.symm

/-- Mapping every element to zero yields a replicate list. -/
theorem map_zero_eq_replicate (l : List Nat) :
    (l.map fun _ => (0 : Nat)) = List.replicate l.length 0 := by
  induction l with
  | nil => rfl
  | cons a t ih => simp [List.replicate, ih]

/-- Generalized refcount lifecycle: running a get/put trace against a live
packet whose refcount stands at `k ≥ 1` (with every op issued while the packet
is still alive) ends alive with refcount `k + gets - puts` when the puts never
catch up, and otherwise ends exactly once-destroyed and deregistered. -/
theorem runRefOps_spec (ops : List RefOp) : ∀ k : Nat, 0 < k →
    (∀ i, i < ops.length → nPuts (ops.take i) < k + nGets (ops.take i)) →
    runRefOps (aliveState k) ops =
      (if nPuts ops < k + nGets ops then aliveState (k + nGets ops - nPuts ops)
       else deadState) := by
  induction ops with
  | nil =>
      intro k hk _
      rw [if_pos (by simpa [nPuts, nGets] using hk)]
      simp [runRefOps, nPuts, nGets]
  | cons op rest ih =>
      intro k hk hlive
      cases op with
      | get =>
          have hstep : refStep (aliveState k) RefOp.get = aliveState (k + 1) := by
            simp [refStep, aliveState]
          have hlive1 : ∀ i, i < rest.length →
              nPuts (rest.take i) < (k + 1) + nGets (rest.take i) := by
            intro i hi
            have h := hlive (i + 1) (by simp only [List.length_cons]; omega)
            rw [List.take_succ_cons] at h
            simp only [nPuts, nGets] at h
            omega
          show runRefOps (refStep (aliveState k) RefOp.get) rest = _
          rw [hstep, ih (k + 1) (by omega) hlive1]
          by_cases hc : nPuts rest < k + 1 + nGets rest
          · rw [if_pos hc,
              if_pos (show nPuts (RefOp.get :: rest) < k + nGets (RefOp.get :: rest) by
                simp only [nPuts, nGets]; omega)]
            have hval : k + 1 + nGets rest - nPuts rest =
                k + nGets (RefOp.get :: rest) - nPuts (RefOp.get :: rest) := by
              simp only [nPuts, nGets]
              omega
            rw [hval]
          · rw [if_neg hc,
              if_neg (show ¬(nPuts (RefOp.get :: rest) < k + nGets (RefOp.get :: rest)) by
                simp only [nPuts, nGets]; omega)]
      | put =>
          by_cases hk1 : k = 1
          · subst hk1
            have hstep : refStep (aliveState 1) RefOp.put = deadState := by
              simp [refStep, aliveState, deadState]
            match rest with
            | [] =>
                show runRefOps (refStep (aliveState 1) RefOp.put) [] = _
                rw [hstep]
                rw [if_neg (by simp [nPuts, nGets])]
                rfl
            | r :: rs =>
                exfalso
                have := hlive 1 (by simp)
                simp [List.take_succ_cons, nPuts, nGets] at this
          · have hk2 : 2 ≤ k := by omega
            have hstep : refStep (aliveState k) RefOp.put = aliveState (k - 1) := by
              simp only [refStep, aliveState]
              rw [if_neg (by omega)]
              have : (k : Int) - 1 = ((k - 1 : Nat) : Int) := by omega
              rw [this]
            have hlive1 : ∀ i, i < rest.length →
                nPuts (rest.take i) < (k - 1) + nGets (rest.take i) := by
              intro i hi
              have := hlive (i + 1) (by simpa using Nat.succ_lt_succ hi)
              simp only [List.take_succ_cons, nPuts, nGets] at this
              omega
            show runRefOps (refStep (aliveState k) RefOp.put) rest = _
            rw [hstep, ih (k - 1) (by omega) hlive1]
            by_cases hc : nPuts rest < (k - 1) + nGets rest
            · rw [if_pos hc,
                if_pos (show nPuts (RefOp.put :: rest) < k + nGets (RefOp.put :: rest) by
                  simp only [nPuts, nGets]; omega)]
              have : (k - 1) + nGets rest - nPuts rest =
                  k + nGets (RefOp.put :: rest) - nPuts (RefOp.put :: rest) := by
                simp only [nPuts, nGets]
                omega
              rw [this]
            · rw [if_neg hc,
                if_neg (show ¬nPuts (RefOp.put :: rest) < k + nGets (RefOp.put :: rest) by
                  simp only [nPuts, nGets]; omega)]

/-- Under the liveness side condition the puts can overtake the gets by at
most the initial reference. -/
theorem nPuts_le_bound (ops : List RefOp) : ∀ k : Nat, 0 < k →
    (∀ i, i < ops.length → nPuts (ops.take i) < k + nGets (ops.take i)) →
    nPuts ops ≤ k + nGets ops := by
  induction ops with
  | nil =>
      intro k hk _
      simp [nPuts, nGets]
  | cons op rest ih =>
      intro k hk hlive
      cases op with
      | get =>
          have hlive1 : ∀ i, i < rest.length →
              nPuts (rest.take i) < (k + 1) + nGets (rest.take i) := by
            intro i hi
            have h := hlive (i + 1) (by simp only [List.length_cons]; omega)
            rw [List.take_succ_cons] at h
            simp only [nPuts, nGets] at h
            omega
          have := ih (k + 1) (by omega) hlive1
          simp only [nPuts, nGets]
          omega
      | put =>
          by_cases hk1 : k = 1
          · subst hk1
            match rest with
            | [] => simp [nPuts, nGets]
            | r :: rs =>
                exfalso
                have := hlive 1 (by simp only [List.length_cons]; omega)
                simp [List.take_succ_cons, nPuts, nGets] at this
          · have hlive1 : ∀ i, i < rest.length →
                nPuts (rest.take i) < (k - 1) + nGets (rest.take i) := by
              intro i hi
              have h := hlive (i + 1) (by simp only [List.length_cons]; omega)
              rw [List.take_succ_cons] at h
              simp only [nPuts, nGets] at h
              omega
            have := ih (k - 1) (by omega) hlive1
            simp only [nPuts, nGets]
            omega

/-- Submitting a request list into a system whose queue holds `l0` in lane 0
and nothing elsewhere appends the allocated tasks to lane 0 in submission
order and advances the id counter by one per request. -/
theorem submitAll_queue_shape (reqs : List SubmitReq) :
    ∀ (s : WorkerSystem) (l0 : List Task),
    (∀ r ∈ reqs, r.func ≠ 0) → s.running = true →
    s.queue.tasks = [l0, [], [], [], [], [], [], []] →
    (submitAll s reqs).queue.tasks =
      [l0 ++ expectedTasks s.task_id_counter reqs, [], [], [], [], [], [], []] ∧
    (submitAll s reqs).task_id_counter = s.task_id_counter + reqs.length := by
  induction reqs with
  | nil =>
      intro s l0 _ _ hq
      simp [submitAll, expectedTasks, hq]
  | cons r rs ih =>
      intro s l0 hf hrun hq
      have hfr : r.func ≠ 0 := hf r (List.mem_cons_self r rs)
      have hstep : hinata_submit_task s r.ttype r.func r.data r.data_size r.flags true =
          (((s.task_id_counter + 1 : Nat) : Int),
           { s with
             queue := hinata_task_queue_add s.queue (mkSubmittedTask s.task_id_counter r),
             task_id_counter := s.task_id_counter + 1,
             tasks_distributed := s.tasks_distributed + 1 }) := by
        unfold hinata_submit_task hinata_task_alloc
        rw [if_neg hfr, if_neg (by simp [hrun]), if_neg hfr, if_neg (by simp)]
        rfl
      have hq1 : (hinata_task_queue_add s.queue (mkSubmittedTask s.task_id_counter r)).tasks =
          [l0 ++ [mkSubmittedTask s.task_id_counter r], [], [], [], [], [], [], []] := by
        unfold hinata_task_queue_add
        rw [hq]
        rfl
      have h := ih { s with
          queue := hinata_task_queue_add s.queue (mkSubmittedTask s.task_id_counter r),
          task_id_counter := s.task_id_counter + 1,
          tasks_distributed := s.tasks_distributed + 1 }
        (l0 ++ [mkSubmittedTask s.task_id_counter r])
        (fun x hx => hf x (List.mem_cons_of_mem r hx)) hrun hq1
      constructor
      · show (submitAll (hinata_submit_task s r.ttype r.func r.data r.data_size r.flags true).2 rs).queue.tasks = _
        rw [hstep]
        rw [h.1]
        simp [expectedTasks, List.append_assoc]
      · show (submitAll (hinata_submit_task s r.ttype r.func r.data r.data_size r.flags true).2 rs).task_id_counter = _
        rw [hstep]
        rw [h.2]
        simp [List.length_cons]
        omega

/-- Draining a queue whose lanes beyond lane 0 are empty returns lane 0 as
it stands. -/
theorem drainQueue_lane0 (l0 : List Task) :
    ∀ q : TaskQueue, q.tasks = [l0, [], [], [], [], [], [], []] →
    drainQueue l0.length q = l0 := by
  induction l0 with
  | nil =>
      intro q _
      rfl
  | cons t ts ih =>
      intro q hq
      show drainQueue (ts.length + 1) q = t :: ts
      have hget : hinata_task_queue_get q =
          (some t, { q with tasks := [ts, [], [], [], [], [], [], []],
                            count := q.count - 1,
                            pending_count := q.pending_count - 1 }) := by
        unfold hinata_task_queue_get
        rw [hq]
        rfl
      have hrec := ih { q with tasks := [ts, [], [], [], [], [], [], []],
                               count := q.count - 1,
                               pending_count := q.pending_count - 1 } rfl
      unfold drainQueue
      rw [hget]
      exact congrArg (List.cons t) hrec

/-- Every task built for a submission carries priority 0. -/
theorem expectedTasks_priority (reqs : List SubmitReq) :
    ∀ c : Nat, ∀ t ∈ expectedTasks c reqs, t.priority = 0 := by
  induction reqs with
  | nil =>
      intro c t ht
      simp [expectedTasks] at ht
  | cons r rs ih =>
      intro c t ht
      rcases List.mem_cons.1 ht with h | h
      · rw [h]
        rfl
      · exact ih (c + 1) t h

/-- `expectedTasks` yields one task per request. -/
theorem expectedTasks_length (reqs : List SubmitReq) :
    ∀ c : Nat, (expectedTasks c reqs).length = reqs.length := by
  induction reqs with
  | nil => intro c; rfl
  | cons r rs ih =>
      intro c
      simp [expectedTasks, ih (c + 1)]

/-- A validation-cache scan over slots none of which match the key reports a
miss and leaves the cache unchanged. -/
theorem vcacheLookup_no_match (c : List VCacheEntry) (id : List Nat) (h t : Nat)
    (hn : ∀ e ∈ c, ¬(e.id = id ∧ e.content_hash = h)) :
    vcacheLookup c id h t = (-1, c) := by
  induction c with
  | nil => rfl
  | cons e rest ih =>
      have he := hn e (List.mem_cons_self e rest)
      have hrec := ih fun x hx => hn x (List.mem_cons_of_mem e hx)
      unfold vcacheLookup
      rw [if_neg he]
      simp [hrec]

/-- Setting slot `i` of a list puts the written element into the list. -/
theorem mem_set_self {α : Type} (l : List α) (i : Nat) (a : α) (hi : i < l.length) :
    a ∈ l.set i a := by
  induction l generalizing i with
  | nil => simp at hi
  | cons x xs ih =>
      cases i with
      | zero => simp
      | succ j =>
          simp only [List.set]
          exact List.mem_cons_of_mem x (ih j (by simpa using hi))

/-- A validation-cache scan over a cache whose unique matching slot is still
inside its TTL returns that slot's verdict and changes nothing. -/
theorem vcacheLookup_unique_hit (c : List VCacheEntry) (e : VCacheEntry)
    (id : List Nat) (h t : Nat) (hmem : e ∈ c) (hid : e.id = id)
    (hh : e.content_hash = h)
    (huniq : ∀ x ∈ c, x.id = id ∧ x.content_hash = h → x = e)
    (httl : t < e.timestamp + VALIDATION_CACHE_TTL) :
    vcacheLookup c id h t = ((if e.is_valid then 1 else 0), c) := by
  induction c with
  | nil => cases hmem
  | cons e0 rest ih =>
      by_cases h0 : e0.id = id ∧ e0.content_hash = h
      · have he0 : e0 = e := huniq e0 (List.mem_cons_self e0 rest) h0
        subst he0
        unfold vcacheLookup
        rw [if_pos h0, if_pos httl]
      · have hmem1 : e ∈ rest := by
          rcases List.mem_cons.1 hmem with h1 | h1
          · exact absurd (h1 ▸ ⟨hid, hh⟩) h0
          · exact h1
        have hrec := ih hmem1 fun x hx hm => huniq x (List.mem_cons_of_mem e0 hx) hm
        unfold vcacheLookup
        rw [if_neg h0]
        simp [hrec]

/-- `hinata_validate_packet_full` on a cache miss with failing checks: the
failing verdict is returned and a `is_valid = false` entry is written into the
ring slot. -/
theorem validate_full_miss_fail (vs : VState) (p : Packet) (flags : Nat)
    (jif now : Nat) (hforce : flags &&& HINATA_VALIDATE_FORCE_RECHECK = 0)
    (hmiss : vcacheLookup vs.cache p.id p.content_hash jif = (-1, vs.cache))
    (hr : hinata_validate_packet_checks p flags now < 0) :
    hinata_validate_packet_full vs (some p) flags jif now =
      (hinata_validate_packet_checks p flags now,
       { cache := vs.cache.set ((vs.cache_index + 1) % HINATA_VALIDATION_CACHE_SIZE)
           ⟨p.id.take (HINATA_UUID_LENGTH - 1), p.content_hash, false, jif⟩,
         cache_index := vs.cache_index + 1,
         validation_count := vs.validation_count + 1,
         success_count := vs.success_count,
         failure_count := vs.failure_count + 1 }) := by
  unfold hinata_validate_packet_full
  simp only [hforce, if_true, hmiss]
  rw [if_neg (show ¬((-1 : Int) > 0) by norm_num),
    if_neg (show ¬((-1 : Int) = 0) by norm_num), if_pos hr]
  unfold vcacheAdd
  rfl

/-- `hinata_validate_packet_full` on a cache miss with passing checks: success
is returned and a `is_valid = true` entry is written into the ring slot. -/
theorem validate_full_miss_pass (vs : VState) (p : Packet) (flags : Nat)
    (jif now : Nat) (hforce : flags &&& HINATA_VALIDATE_FORCE_RECHECK = 0)
    (hmiss : vcacheLookup vs.cache p.id p.content_hash jif = (-1, vs.cache))
    (hr : ¬hinata_validate_packet_checks p flags now < 0) :
    hinata_validate_packet_full vs (some p) flags jif now =
      (0,
       { cache := vs.cache.set ((vs.cache_index + 1) % HINATA_VALIDATION_CACHE_SIZE)
           ⟨p.id.take (HINATA_UUID_LENGTH - 1), p.content_hash, true, jif⟩,
         cache_index := vs.cache_index + 1,
         validation_count := vs.validation_count + 1,
         success_count := vs.success_count + 1,
         failure_count := vs.failure_count }) := by
  unfold hinata_validate_packet_full
  simp only [hforce, if_true, hmiss]
  rw [if_neg (show ¬((-1 : Int) > 0) by norm_num),
    if_neg (show ¬((-1 : Int) = 0) by norm_num), if_neg hr]
  unfold vcacheAdd
  rfl

/-- `hinata_validate_packet_full` on a valid-verdict cache hit short-circuits
to success without touching the cache. -/
theorem validate_full_hit_true (vs : VState) (p : Packet) (flags : Nat)
    (jif now : Nat) (hforce : flags &&& HINATA_VALIDATE_FORCE_RECHECK = 0)
    (hhit : vcacheLookup vs.cache p.id p.content_hash jif = (1, vs.cache)) :
    hinata_validate_packet_full vs (some p) flags jif now =
      (0, { vs with
            validation_count := vs.validation_count + 1,
            success_count := vs.success_count + 1 }) := by
  unfold hinata_validate_packet_full
  simp only [hforce, if_true, hhit]
  rw [if_pos (show (1 : Int) > 0 by norm_num)]

/-- `hinata_validate_packet_full` on an invalid-verdict cache hit
short-circuits to `-EINVAL` without touching the cache. -/
theorem validate_full_hit_false (vs : VState) (p : Packet) (flags : Nat)
    (jif now : Nat) (hforce : flags &&& HINATA_VALIDATE_FORCE_RECHECK = 0)
    (hhit : vcacheLookup vs.cache p.id p.content_hash jif = (0, vs.cache)) :
    hinata_validate_packet_full vs (some p) flags jif now =
      (-EINVAL, { vs with
            validation_count := vs.validation_count + 1,
            failure_count := vs.failure_count + 1 }) := by
  unfold hinata_validate_packet_full
  simp only [hforce, if_true, hhit]
  rw [if_neg (show ¬((0 : Int) > 0) by norm_num)]

/-- Taking at least as many elements as the list holds returns the list. -/
theorem take_of_le_len {α : Type} (l : List α) (n : Nat) (h : l.length ≤ n) :
    l.take n = l := by
  induction l generalizing n with
  | nil => simp
  | cons x xs ih =>
      cases n with
      | zero => simp at h
      | succ m =>
          simp only [List.take]
          rw [ih m (by simpa using h)]

end Hinata

open Hinata

/-! ## Claim theorems -/

/-- C5: for every allocation request with the module initialized and a
positive size, if the requested size exceeds the single-allocation cap, or the
current usage (total_allocated minus total_freed) plus the requested size
exceeds the total-memory cap, then `hinata_malloc` returns NULL, increments
the OOM counter, and leaves `total_allocated` unchanged. -/
theorem c5_malloc_cap_failure (ctx : MemoryCtx) (size : Nat) (fresh : Nat → Nat)
    (osOk trackOk : Bool) (hinit : ctx.initialized = true) (hpos : 0 < size)
    (hcap : size > ctx.limits.max_single_alloc ∨
      ctx.current_usage + size > ctx.limits.max_total_size) :
    (hinata_malloc ctx size fresh osOk trackOk).1 = none ∧
    (hinata_malloc ctx size fresh osOk trackOk).2.oom_count = ctx.oom_count + 1 ∧
    (hinata_malloc ctx size fresh osOk trackOk).2.total_allocated = ctx.total_allocated := by
  unfold hinata_malloc
  rw [if_neg (by simp [hinit]; omega)]
  by_cases h1 : size > ctx.limits.max_single_alloc
  · rw [if_pos h1]
    exact ⟨rfl, rfl, rfl⟩
  · rw [if_neg h1, if_pos (hcap.resolve_left h1)]
    exact ⟨rfl, rfl, rfl⟩

/-- Witness for C5 at a concrete oversized request (17 MiB > the 16 MiB
single-allocation cap) against the freshly initialized context. -/
theorem c5_malloc_cap_failure_witness :
    (hinata_malloc memoryCtx0 (17 * 1024 * 1024) (fun _ => 7) true true).1 = none ∧
    (hinata_malloc memoryCtx0 (17 * 1024 * 1024) (fun _ => 7) true true).2.oom_count =
      memoryCtx0.oom_count + 1 ∧
    (hinata_malloc memoryCtx0 (17 * 1024 * 1024) (fun _ => 7) true true).2.total_allocated =
      memoryCtx0.total_allocated :=
  c5_malloc_cap_failure memoryCtx0 (17 * 1024 * 1024) (fun _ => 7) true true
    (by decide) (by decide) (Or.inl (by decide))

/-- C10: `hinata_calloc` rejects `nmemb`/`size` pairs whose product would
overflow `SIZE_MAX` before performing the multiplication (returning NULL with
the context untouched); whenever the guard passes the product cannot exceed
`SIZE_MAX`; and every successful call returns an `nmemb * size`-byte buffer of
zeros. -/
theorem c10_calloc_overflow_and_zeroing (ctx : MemoryCtx) (nmemb size : Nat)
    (fresh : Nat → Nat) (osOk trackOk : Bool) :
    (nmemb ≠ 0 → size > SIZE_MAX / nmemb →
      hinata_calloc ctx nmemb size fresh osOk trackOk = (none, ctx)) ∧
    (¬(nmemb ≠ 0 ∧ size > SIZE_MAX / nmemb) → nmemb * size ≤ SIZE_MAX) ∧
    (∀ buf ctx1, hinata_calloc ctx nmemb size fresh osOk trackOk = (some buf, ctx1) →
      buf = List.replicate (nmemb * size) 0) := by
  refine ⟨fun h0 h1 => ?_, fun h => ?_, fun buf ctx1 hc => ?_⟩
  · unfold hinata_calloc
    rw [if_pos ⟨h0, h1⟩]
  · rcases Nat.eq_zero_or_pos nmemb with h0 | h0
    · simp [h0]
    · have h2 : size ≤ SIZE_MAX / nmemb := by
        by_contra h2
        exact h ⟨by omega, by omega⟩
      have h3 := (Nat.le_div_iff_mul_le h0).1 h2
      calc nmemb * size = size * nmemb := Nat.mul_comm _ _
        _ ≤ SIZE_MAX := h3
  · unfold hinata_calloc at hc
    split at hc
    · simp at hc
    · rcases hm : hinata_malloc ctx (nmemb * size) fresh osOk trackOk with ⟨ob, c⟩
      rw [hm] at hc
      match ob, hc with
      | some b, hc =>
          have hb := hinata_malloc_some_eq ctx (nmemb * size) fresh osOk trackOk b c hm
          injection hc with hA hB
          injection hA with hA2
          rw [← hA2, map_zero_eq_replicate, hb]
          simp

/-- Witness for C10: the overflowing request `(2, 2^63)` is refused with the
context unchanged, and the successful request `(3, 2)` over nonzero fresh
memory returns six zero bytes. -/
theorem c10_calloc_overflow_and_zeroing_witness :
    hinata_calloc memoryCtx0 2 (2 ^ 63) (fun _ => 9) true true = (none, memoryCtx0) ∧
    ∀ buf ctx1, hinata_calloc memoryCtx0 3 2 (fun _ => 9) true true = (some buf, ctx1) →
      buf = List.replicate (3 * 2) 0 :=
  ⟨(c10_calloc_overflow_and_zeroing memoryCtx0 2 (2 ^ 63) (fun _ => 9) true true).1
     (by decide) (by norm_num [SIZE_MAX]),
   (c10_calloc_overflow_and_zeroing memoryCtx0 3 2 (fun _ => 9) true true).2.2⟩

/-- C7: `hinata_cancel_task` is an unimplemented stub that returns `-ENOSYS`
for every task id — in particular it never succeeds for a task that is still
pending in the queue, contrary to the claim. -/
theorem c7_cancel_task_always_enosys :
    ∀ task_id : Nat, hinata_cancel_task task_id = -ENOSYS :=
  fun _ => rfl

/-- C4: enqueueing four tasks with priorities [2, 0, 1, 0] in that order
dequeues them as [first lane-0 task, second lane-0 task, lane-1 task, lane-2
task] — strict highest-priority-first order with FIFO order inside a lane. -/
theorem c4_priority_queue_order (t1 t2 t3 t4 : Task)
    (h1 : t1.priority = 2) (h2 : t2.priority = 0)
    (h3 : t3.priority = 1) (h4 : t4.priority = 0) :
    drainQueue 4 (hinata_task_queue_add (hinata_task_queue_add
      (hinata_task_queue_add (hinata_task_queue_add emptyTaskQueue t1) t2) t3) t4)
      = [t2, t4, t3, t1] := by
  obtain ⟨i1, y1, s1, f1, p1, fn1, d1, e1, r1, m1⟩ := t1
  obtain ⟨i2, y2, s2, f2, p2, fn2, d2, e2, r2, m2⟩ := t2
  obtain ⟨i3, y3, s3, f3, p3, fn3, d3, e3, r3, m3⟩ := t3
  obtain ⟨i4, y4, s4, f4, p4, fn4, d4, e4, r4, m4⟩ := t4
  dsimp only at h1 h2 h3 h4
  subst h1 h2 h3 h4
  rfl

/-- C3: for a packet created with reference count 1 and any get/put trace
issued only while the packet is alive, the packet stays valid (never
destroyed) exactly while the gets plus the initial create exceed the puts; the
put that brings the count to zero runs destroy exactly once, which frees the
owned buffers a single time and drops the hash-table registration
(`deadState` has `destroy_count = 1` and `in_hash = false`). -/
theorem c3_refcount_lifecycle (ops : List RefOp)
    (hlive : ∀ i, i < ops.length → nPuts (ops.take i) ≤ nGets (ops.take i)) :
    runRefOps initialPacketLife ops =
      (if nPuts ops ≤ nGets ops then aliveState (1 + nGets ops - nPuts ops)
       else deadState) ∧
    ((runRefOps initialPacketLife ops).destroy_count = 0 ↔
      nPuts ops < 1 + nGets ops) ∧
    ((runRefOps initialPacketLife ops).destroy_count = 1 ↔
      nPuts ops = 1 + nGets ops) := by
  have hlive1 : ∀ i, i < ops.length →
      nPuts (ops.take i) < 1 + nGets (ops.take i) := by
    intro i hi
    have := hlive i hi
    omega
  have hspec := runRefOps_spec ops 1 (by omega) hlive1
  have hbound := nPuts_le_bound ops 1 (by omega) hlive1
  have hinit : initialPacketLife = aliveState 1 := rfl
  rw [hinit, hspec]
  by_cases hc : nPuts ops < 1 + nGets ops
  · rw [if_pos hc, if_pos (by omega)]
    refine ⟨rfl, ?_, ?_⟩
    · simp [aliveState]
      omega
    · simp [aliveState]
      omega
  · rw [if_neg hc, if_neg (by omega)]
    refine ⟨rfl, ?_, ?_⟩
    · simp [deadState]
      omega
    · simp [deadState]
      omega

/-- Witness for C3 at the trace [get, put, put]: one extra reference is taken
and dropped, then the final put destroys the packet exactly once. -/
theorem c3_refcount_lifecycle_witness :
    runRefOps initialPacketLife [RefOp.get, RefOp.put, RefOp.put] =
      (if nPuts [RefOp.get, RefOp.put, RefOp.put] ≤ nGets [RefOp.get, RefOp.put, RefOp.put]
       then aliveState (1 + nGets [RefOp.get, RefOp.put, RefOp.put] -
         nPuts [RefOp.get, RefOp.put, RefOp.put])
       else deadState) ∧
    ((runRefOps initialPacketLife [RefOp.get, RefOp.put, RefOp.put]).destroy_count = 0 ↔
      nPuts [RefOp.get, RefOp.put, RefOp.put] < 1 + nGets [RefOp.get, RefOp.put, RefOp.put]) ∧
    ((runRefOps initialPacketLife [RefOp.get, RefOp.put, RefOp.put]).destroy_count = 1 ↔
      nPuts [RefOp.get, RefOp.put, RefOp.put] = 1 + nGets [RefOp.get, RefOp.put, RefOp.put]) :=
  c3_refcount_lifecycle [RefOp.get, RefOp.put, RefOp.put] (by decide)

/-- Witness for C4 at four concrete tasks. -/
theorem c4_priority_queue_order_witness :
    drainQueue 4 (hinata_task_queue_add (hinata_task_queue_add
      (hinata_task_queue_add (hinata_task_queue_add emptyTaskQueue
        ⟨1, 0, .pending, 0, 2, 1, 0, 0, 0, 3⟩) ⟨2, 0, .pending, 0, 0, 1, 0, 0, 0, 3⟩)
        ⟨3, 0, .pending, 0, 1, 1, 0, 0, 0, 3⟩) ⟨4, 0, .pending, 0, 0, 1, 0, 0, 0, 3⟩)
      = [⟨2, 0, .pending, 0, 0, 1, 0, 0, 0, 3⟩, ⟨4, 0, .pending, 0, 0, 1, 0, 0, 0, 3⟩,
         ⟨3, 0, .pending, 0, 1, 1, 0, 0, 0, 3⟩, ⟨1, 0, .pending, 0, 2, 1, 0, 0, 0, 3⟩] :=
  c4_priority_queue_order _ _ _ _ rfl rfl rfl rfl

/-- C9: every task created through `hinata_submit_task` gets priority 0 (the
interface has no priority parameter and `hinata_task_alloc` sets 0), so all
tasks submitted through the public interface land in the highest-priority lane
and dequeue in pure FIFO submission order. -/
theorem c9_submit_fifo (reqs : List SubmitReq) (s0 : WorkerSystem)
    (hrun : s0.running = true)
    (hq : s0.queue.tasks = [[], [], [], [], [], [], [], []])
    (hf : ∀ r ∈ reqs, r.func ≠ 0) :
    drainQueue reqs.length (submitAll s0 reqs).queue =
      expectedTasks s0.task_id_counter reqs ∧
    ∀ t ∈ drainQueue reqs.length (submitAll s0 reqs).queue, t.priority = 0 := by
  have hshape := submitAll_queue_shape reqs s0 [] hf hrun hq
  have hdrain := drainQueue_lane0 (expectedTasks s0.task_id_counter reqs)
    (submitAll s0 reqs).queue (by rw [hshape.1]; simp)
  rw [expectedTasks_length reqs s0.task_id_counter] at hdrain
  exact ⟨hdrain, fun t ht => expectedTasks_priority reqs s0.task_id_counter t
    (hdrain ▸ ht)⟩

/-- Witness for C9: three concrete submissions to a fresh system dequeue as
the three allocated tasks in submission order, all at priority 0. -/
theorem c9_submit_fifo_witness :
    drainQueue ([⟨0, 5, 0, 0, 0⟩, ⟨1, 6, 0, 0, 0⟩, ⟨2, 7, 0, 0, 0⟩] : List SubmitReq).length
        (submitAll ⟨emptyTaskQueue, 0, true, 0⟩ [⟨0, 5, 0, 0, 0⟩, ⟨1, 6, 0, 0, 0⟩, ⟨2, 7, 0, 0, 0⟩]).queue =
      expectedTasks 0 [⟨0, 5, 0, 0, 0⟩, ⟨1, 6, 0, 0, 0⟩, ⟨2, 7, 0, 0, 0⟩] ∧
    ∀ t ∈ drainQueue ([⟨0, 5, 0, 0, 0⟩, ⟨1, 6, 0, 0, 0⟩, ⟨2, 7, 0, 0, 0⟩] : List SubmitReq).length
        (submitAll ⟨emptyTaskQueue, 0, true, 0⟩ [⟨0, 5, 0, 0, 0⟩, ⟨1, 6, 0, 0, 0⟩, ⟨2, 7, 0, 0, 0⟩]).queue,
      t.priority = 0 :=
  c9_submit_fifo [⟨0, 5, 0, 0, 0⟩, ⟨1, 6, 0, 0, 0⟩, ⟨2, 7, 0, 0, 0⟩]
    ⟨emptyTaskQueue, 0, true, 0⟩ rfl (by decide) (by decide)

/-- C2: for every packet and existing region, `hinata_storage_store_packet`
first validates the packet (modelled, per the spec, at the STANDARD composite
level = BASIC+CONTENT+INTEGRITY) and, whenever that validation fails, returns
`-EINVAL` with the whole storage state — regions, block indexes, cache and
statistics — unchanged (only the validation cache records the verdict). -/
theorem c2_store_rejects_invalid_without_writing (st : StorageState) (vs : VState)
    (p : Packet) (region_id : Nat) (jif now : Nat)
    (mallocOk writeOk ceOk cdOk : Bool)
    (hinit : st.initialized = true) (hr : region_id < HINATA_STORAGE_MAX_REGIONS)
    (hfile : (st.regions.getD region_id defaultRegion).hasFile = true)
    (hval : (hinata_validate_packet vs (some p) jif now).1 ≠ 0) :
    hinata_storage_store_packet st vs (some p) region_id jif now
        mallocOk writeOk ceOk cdOk =
      (-EINVAL, st, (hinata_validate_packet vs (some p) jif now).2) ∧
    hinata_validate_packet vs (some p) jif now =
      hinata_validate_packet_full vs (some p) HINATA_VALIDATE_STANDARD jif now := by
  refine ⟨?_, rfl⟩
  have hge : ¬region_id ≥ HINATA_STORAGE_MAX_REGIONS := by omega
  have hfile1 : (st.regions[region_id]?.getD defaultRegion).hasFile = true := by
    simpa [List.getD] using hfile
  unfold hinata_storage_store_packet
  simp [hinit, hge, hval, hfile1]

/-- Witness for C2: the packet with a corrupted magic number fails STANDARD
validation and is rejected with `-EINVAL`, leaving the one-region storage
state untouched. -/
theorem c2_store_rejects_invalid_without_writing_witness :
    (hinata_storage_store_packet storageWithRegion0 initialVState
        (some packetBadMagic) 0 5 2000 true true true true =
      (-EINVAL, storageWithRegion0,
       (hinata_validate_packet initialVState (some packetBadMagic) 5 2000).2)) ∧
    hinata_validate_packet initialVState (some packetBadMagic) 5 2000 =
      hinata_validate_packet_full initialVState (some packetBadMagic)
        HINATA_VALIDATE_STANDARD 5 2000 :=
  c2_store_rejects_invalid_without_writing storageWithRegion0 initialVState
    packetBadMagic 0 5 2000 true true true true
    (by decide) (by decide) (by decide) (by decide)

/-- C6: calling validate twice on the same unmodified packet (no force-recheck
flag, no prior cache entry for its (UUID, content_hash) key) yields the same
verdict; the second call is answered by the validation cache within the TTL
window, and the entry — keyed by (UUID, content_hash) — was inserted whether
the first verdict passed or failed. -/
theorem c6_validate_idempotent_cached (vs : VState) (p : Packet) (flags : Nat)
    (t1 t2 n1 n2 : Nat)
    (hforce : flags &&& HINATA_VALIDATE_FORCE_RECHECK = 0)
    (hid : p.id.length ≤ HINATA_UUID_LENGTH - 1)
    (hlen : vs.cache.length = HINATA_VALIDATION_CACHE_SIZE)
    (hfresh : ∀ e ∈ vs.cache, ¬(e.id = p.id ∧ e.content_hash = p.content_hash))
    (httl : t2 < t1 + VALIDATION_CACHE_TTL) :
    (hinata_validate_packet_full (hinata_validate_packet_full vs (some p) flags t1 n1).2
        (some p) flags t2 n2).1 =
      (if (hinata_validate_packet_full vs (some p) flags t1 n1).1 = 0 then 0
       else -EINVAL) ∧
    (vcacheLookup (hinata_validate_packet_full vs (some p) flags t1 n1).2.cache
        p.id p.content_hash t2).1 =
      (if (hinata_validate_packet_full vs (some p) flags t1 n1).1 = 0 then 1 else 0) ∧
    ∃ e ∈ (hinata_validate_packet_full vs (some p) flags t1 n1).2.cache,
      e.id = p.id ∧ e.content_hash = p.content_hash ∧ e.timestamp = t1 ∧
      (e.is_valid = true ↔ (hinata_validate_packet_full vs (some p) flags t1 n1).1 = 0) := by
  have htake : p.id.take (HINATA_UUID_LENGTH - 1) = p.id := take_of_le_len _ _ hid
  have hmiss : vcacheLookup vs.cache p.id p.content_hash t1 = (-1, vs.cache) :=
    vcacheLookup_no_match _ _ _ _ hfresh
  have hidx : (vs.cache_index + 1) % HINATA_VALIDATION_CACHE_SIZE < vs.cache.length := by
    rw [hlen]
    exact Nat.mod_lt _ (by norm_num [HINATA_VALIDATION_CACHE_SIZE])
  by_cases hchk : hinata_validate_packet_checks p flags n1 < 0
  · have hfc := validate_full_miss_fail vs p flags t1 n1 hforce hmiss hchk
    rw [hfc]
    set e1 : VCacheEntry :=
      ⟨p.id.take (HINATA_UUID_LENGTH - 1), p.content_hash, false, t1⟩ with he1
    set c1 : List VCacheEntry :=
      vs.cache.set ((vs.cache_index + 1) % HINATA_VALIDATION_CACHE_SIZE) e1 with hc1
    have hmem : e1 ∈ c1 := mem_set_self _ _ _ hidx
    have huniq : ∀ x ∈ c1, x.id = p.id ∧ x.content_hash = p.content_hash → x = e1 := by
      intro x hx hm
      rcases List.mem_or_eq_of_mem_set hx with h1 | h1
      · exact absurd hm (hfresh x h1)
      · exact h1
    have hlook2 : vcacheLookup c1 p.id p.content_hash t2 =
        ((if e1.is_valid then 1 else 0), c1) :=
      vcacheLookup_unique_hit c1 e1 p.id p.content_hash t2 hmem
        (by rw [he1]; exact htake) rfl huniq (by rw [he1]; simpa using httl)
    have hval1 : e1.is_valid = false := rfl
    have hr1ne : ¬(hinata_validate_packet_checks p flags n1 = 0) := by omega
    refine ⟨?_, ?_, ?_⟩
    · have hsec := validate_full_hit_false
        { cache := c1, cache_index := vs.cache_index + 1,
          validation_count := vs.validation_count + 1,
          success_count := vs.success_count,
          failure_count := vs.failure_count + 1 }
        p flags t2 n2 hforce (by simpa [hval1] using hlook2)
      rw [hsec]
      simp [hr1ne]
    · rw [hlook2]
      simp [hval1, hr1ne]
    · exact ⟨e1, hmem, by rw [he1]; exact htake, rfl, rfl, by simp [hval1, hr1ne]⟩
  · have hfc := validate_full_miss_pass vs p flags t1 n1 hforce hmiss hchk
    rw [hfc]
    set e1 : VCacheEntry :=
      ⟨p.id.take (HINATA_UUID_LENGTH - 1), p.content_hash, true, t1⟩ with he1
    set c1 : List VCacheEntry :=
      vs.cache.set ((vs.cache_index + 1) % HINATA_VALIDATION_CACHE_SIZE) e1 with hc1
    have hmem : e1 ∈ c1 := mem_set_self _ _ _ hidx
    have huniq : ∀ x ∈ c1, x.id = p.id ∧ x.content_hash = p.content_hash → x = e1 := by
      intro x hx hm
      rcases List.mem_or_eq_of_mem_set hx with h1 | h1
      · exact absurd hm (hfresh x h1)
      · exact h1
    have hlook2 : vcacheLookup c1 p.id p.content_hash t2 =
        ((if e1.is_valid then 1 else 0), c1) :=
      vcacheLookup_unique_hit c1 e1 p.id p.content_hash t2 hmem
        (by rw [he1]; exact htake) rfl huniq (by rw [he1]; simpa using httl)
    have hval1 : e1.is_valid = true := rfl
    refine ⟨?_, ?_, ?_⟩
    · have hsec := validate_full_hit_true
        { cache := c1, cache_index := vs.cache_index + 1,
          validation_count := vs.validation_count + 1,
          success_count := vs.success_count + 1,
          failure_count := vs.failure_count }
        p flags t2 n2 hforce (by simpa [hval1] using hlook2)
      rw [hsec]
      simp
    · rw [hlook2]
      simp [hval1]
    · exact ⟨e1, hmem, by rw [he1]; exact htake, rfl, rfl, by simp [hval1]⟩

set_option maxRecDepth 4000 in
/-- Witness for C6: validating the bad-magic packet twice against a fresh
validation state caches and replays the failing verdict. -/
theorem c6_validate_idempotent_cached_witness :
    (hinata_validate_packet_full
        (hinata_validate_packet_full initialVState (some packetBadMagic)
          HINATA_VALIDATE_STANDARD 10 2000).2
        (some packetBadMagic) HINATA_VALIDATE_STANDARD 20 2000).1 =
      (if (hinata_validate_packet_full initialVState (some packetBadMagic)
          HINATA_VALIDATE_STANDARD 10 2000).1 = 0 then 0 else -EINVAL) ∧
    (vcacheLookup (hinata_validate_packet_full initialVState (some packetBadMagic)
        HINATA_VALIDATE_STANDARD 10 2000).2.cache
        packetBadMagic.id packetBadMagic.content_hash 20).1 =
      (if (hinata_validate_packet_full initialVState (some packetBadMagic)
          HINATA_VALIDATE_STANDARD 10 2000).1 = 0 then 1 else 0) ∧
    ∃ e ∈ (hinata_validate_packet_full initialVState (some packetBadMagic)
        HINATA_VALIDATE_STANDARD 10 2000).2.cache,
      e.id = packetBadMagic.id ∧ e.content_hash = packetBadMagic.content_hash ∧
      e.timestamp = 10 ∧
      (e.is_valid = true ↔ (hinata_validate_packet_full initialVState
        (some packetBadMagic) HINATA_VALIDATE_STANDARD 10 2000).1 = 0) :=
  c6_validate_idempotent_cached initialVState packetBadMagic
    HINATA_VALIDATE_STANDARD 10 20 2000 2000
    (by decide) (by decide) (by decide) (by decide) (by decide)

/-- C8 (code bug exhibit): storing one valid packet into a fresh region
succeeds and raises `block_count` to 1, yet the region's in-memory block index
(`block_tree`) stays empty — the block record built by the store path is never
inserted, so `block_count` does not equal the number of live entries. -/
theorem c8_block_count_without_block_tree_entry :
    (hinata_storage_store_packet storageWithRegion0 initialVState (some packetHi)
        0 5 2000 true true true true).1 = 0 ∧
    (storedState.regions.getD 0 defaultRegion).block_count = 1 ∧
    (storedState.regions.getD 0 defaultRegion).blocks = [] := by
  refine ⟨?_, ?_, ?_⟩ <;> decide

/-- C1 (code bug exhibit): `packetHi` is stored successfully, its cache entry
is then removed, and the subsequent `hinata_storage_load_packet` — forced to
read the region — fails with `-ENOENT` and returns no packet, because the
region search/read/deserialize path of the source is an unimplemented
placeholder. -/
theorem c1_load_after_eviction_fails_enoent :
    (hinata_storage_store_packet storageWithRegion0 initialVState (some packetHi)
        0 5 2000 true true true true).1 = 0 ∧
    (hinata_storage_cache_remove storedState.cache storedState.cache_size uuid0).1 = 0 ∧
    (hinata_storage_load_packet evictedState (some uuid0) 0 3000 uuid0 3000 true).1 =
      -ENOENT ∧
    (hinata_storage_load_packet evictedState (some uuid0) 0 3000 uuid0 3000 true).2.1 =
      none := by
  refine ⟨?_, ?_, ?_, ?_⟩ <;> decide
